import Mathlib

/-!
Verification of the ShapedBuffer / ScopedShapedBuffer core
(tensorflow/compiler/xla/service/shaped_buffer.h).

The repository provides only the interface header; every method body below
whose doc comment starts with "Modelled from the spec:" is a faithful
translation of the behaviour described in the design specification for the
declaration found in the header.  Machine integers are modelled as Nat;
device memory handles are pairs of an address and a byte length, with
address 0 playing the role of the null pointer; the external device memory
allocator is modelled as a deterministic oracle together with an explicit
call log, so that claims counting allocator interactions become statements
about the log.
-/

/-! ## Shapes and shape indices -/

mutual

/-- Modelled from the spec: an XLA `Shape` (xla_data.pb.h, not in the
source fragment) is either an array with a known byte size or a tuple of
child shapes. -/
inductive Shape where
  | array (byteSize : Nat)
  | tuple (elems : ShapeList)

/-- List of child shapes of a tuple node (mutually inductive spine so that
all functions below are structurally recursive). -/
inductive ShapeList where
  | nil
  | cons (head : Shape) (tail : ShapeList)

end

/-- Number of immediate children in a shape list. -/
def ShapeList.length : ShapeList → Nat
  | .nil => 0
  | .cons _ t => t.length + 1

/-- Modelled from the spec: a `ShapeIndex` is an ordered sequence of child
selectors; the empty sequence denotes the root. -/
def ShapeIndex : Type := List Nat

mutual

/-- Modelled from the spec: `ShapeUtil::GetSubshape` — resolve a shape
index to the subshape it denotes, or nothing when the index is not a valid
node of the shape. -/
def getSubshape : Shape → List Nat → Option Shape
  | s, [] => some s
  | .array _, _ :: _ => none
  | .tuple es, i :: rest => getSubshapeList es i rest

/-- Child-list helper of `getSubshape`: select the i-th child, then keep
resolving the remaining index. -/
def getSubshapeList : ShapeList → Nat → List Nat → Option Shape
  | .nil, _, _ => none
  | .cons s _, 0, rest => getSubshape s rest
  | .cons _ es, i+1, rest => getSubshapeList es i rest

end

/-- Modelled from the spec: byte size of the backend representation of a
pointer to a tuple element, used to size tuple-representation buffers. -/
def pointerSize : Nat := 8

/-- Modelled from the spec: `ShapeUtil::ByteSizeOf` — an array shape needs
its own byte size; a tuple node needs one pointer per immediate child. -/
def byteSizeOf : Shape → Nat
  | .array n => n
  | .tuple es => pointerSize * es.length

/-! ## ShapeTree -/

mutual

/-- Modelled from the spec: `ShapeTree<T>` (shape_tree.h, not in the source
fragment) associates one value of type T with every node — leaf or tuple —
of a shape's topology. -/
inductive ShapeTree (α : Type) where
  | leaf (v : α)
  | node (v : α) (children : ShapeTreeList α)

/-- Children of a `ShapeTree` node (mutually inductive spine). -/
inductive ShapeTreeList (α : Type) where
  | nil
  | cons (head : ShapeTree α) (tail : ShapeTreeList α)

end

mutual

/-- Modelled from the spec: `ShapeTree` lookup by shape index; the lookup
fails exactly when the index is not a node of the underlying topology. -/
def ShapeTree.lookup {α : Type} : ShapeTree α → List Nat → Option α
  | .leaf v, [] => some v
  | .leaf _, _ :: _ => none
  | .node v _, [] => some v
  | .node _ ts, i :: rest => ShapeTree.lookupChildren ts i rest

/-- Child-list helper of `ShapeTree.lookup`. -/
def ShapeTree.lookupChildren {α : Type} : ShapeTreeList α → Nat → List Nat → Option α
  | .nil, _, _ => none
  | .cons t _, 0, rest => t.lookup rest
  | .cons _ ts, i+1, rest => ShapeTree.lookupChildren ts i rest

end

mutual

/-- Modelled from the spec: the `ShapeTree` constructor — build a tree over
the full topology of a shape with every node's value default-initialized. -/
def ShapeTree.ofShape {α : Type} (init : α) : Shape → ShapeTree α
  | .array _ => .leaf init
  | .tuple es => .node init (ShapeTree.ofShapeList init es)

/-- Child-list helper of `ShapeTree.ofShape`. -/
def ShapeTree.ofShapeList {α : Type} (init : α) : ShapeList → ShapeTreeList α
  | .nil => .nil
  | .cons s rest => .cons (ShapeTree.ofShape init s) (ShapeTree.ofShapeList init rest)

end

mutual

/-- Modelled from the spec: pre-order numbering of a shape's nodes starting
at `k` — the index map produced by the bulk allocation path, where the
n-th visited node is assigned buffer table entry n. Returns the tree and
the next unused number. -/
def numberShape : Shape → Nat → ShapeTree Nat × Nat
  | .array _, k => (.leaf k, k + 1)
  | .tuple es, k =>
    let r := numberShapeList es (k + 1)
    (.node k r.1, r.2)

/-- Child-list helper of `numberShape`. -/
def numberShapeList : ShapeList → Nat → ShapeTreeList Nat × Nat
  | .nil, k => (.nil, k)
  | .cons s rest, k =>
    let r1 := numberShape s k
    let r2 := numberShapeList rest r1.2
    (.cons r1.1 r2.1, r2.2)

end

mutual

/-- Modelled from the spec: the pre-order list of allocation request sizes
for a shape — every node of the topology gets a buffer: an array leaf is
sized by `byteSizeOf`, a tuple node by one pointer per immediate child
(node before children, matching `numberShape`). -/
def allocSizes : Shape → List Nat
  | .array n => [n]
  | .tuple es => (pointerSize * es.length) :: allocSizesList es

/-- Child-list helper of `allocSizes`. -/
def allocSizesList : ShapeList → List Nat
  | .nil => []
  | .cons s rest => allocSizes s ++ allocSizesList rest

end

/-! ## Device memory and the allocator oracle -/

/-- Modelled from the spec: `perftools::gputools::DeviceMemoryBase` — an
opaque device memory reference made of a raw address and a byte length;
address 0 is the null handle ("no memory assigned"). -/
structure DeviceMemoryBase where
  addr : Nat
  size : Nat
deriving DecidableEq, Repr

/-- The null device memory handle. -/
def DeviceMemoryBase.null : DeviceMemoryBase := ⟨0, 0⟩

/-- A handle is null exactly when its address is 0 (`is_null()`). -/
def DeviceMemoryBase.isNull (m : DeviceMemoryBase) : Bool := m.addr == 0

/-- Modelled from the spec: the recoverable error taxonomy of this core —
a too-small caller-supplied buffer, or an allocator refusal. -/
inductive XlaError where
  | SizeMismatch
  | AllocationFailure
deriving DecidableEq, Repr

/-- Observable interaction record of the external device memory allocator:
one entry per call, so that claims counting allocator calls are statements
about list lengths.  `allocLog` records every allocation request as
(device ordinal, byte size); `allocSuccessLog` records every granted
request as (device ordinal, address of the fresh handle); `deallocLog`
records every deallocation call as (device ordinal, address). -/
structure AllocState where
  allocLog : List (Nat × Nat)
  allocSuccessLog : List (Nat × Nat)
  deallocLog : List (Nat × Nat)
deriving DecidableEq, Repr

/-- Total number of allocation requests issued so far. -/
def AllocState.allocCalls (σ : AllocState) : Nat := σ.allocLog.length

/-- Total number of allocation requests granted so far. -/
def AllocState.allocSuccesses (σ : AllocState) : Nat := σ.allocSuccessLog.length

/-- Total number of deallocation calls issued so far. -/
def AllocState.deallocCalls (σ : AllocState) : Nat := σ.deallocLog.length

/-- The empty allocator interaction record. -/
def AllocState.initial : AllocState := ⟨[], [], []⟩

/-- Modelled from the spec: a `DeviceMemoryAllocator` for some platform,
abstracted to a deterministic oracle: `ok n` decides whether the n-th
allocation request of the allocator's lifetime is granted.  Granted
requests return fresh, pairwise distinct, non-null handles. -/
structure DeviceMemoryAllocator where
  platform : Nat
  ok : Nat → Bool

/-- Modelled from the spec: `DeviceMemoryAllocator::Allocate(device_ordinal,
byte_size)` — either a fresh handle of the requested size or
AllocationFailure; every request is logged. Fresh addresses are
`allocCalls + 1`, hence non-null and distinct across calls. -/
def DeviceMemoryAllocator.Allocate (a : DeviceMemoryAllocator) (ordinal size : Nat)
    (σ : AllocState) : Except XlaError DeviceMemoryBase × AllocState :=
  let n := σ.allocLog.length
  let σ1 : AllocState := ⟨σ.allocLog ++ [(ordinal, size)], σ.allocSuccessLog, σ.deallocLog⟩
  if a.ok n then
    (.ok ⟨n + 1, size⟩,
      ⟨σ1.allocLog, σ1.allocSuccessLog ++ [(ordinal, n + 1)], σ1.deallocLog⟩)
  else
    (.error .AllocationFailure, σ1)

/-- Modelled from the spec: `DeviceMemoryAllocator::Deallocate(device_ordinal,
handle)` — deallocation errors are logged/fatal and not propagated, so the
model only records the call. -/
def DeviceMemoryAllocator.Deallocate (_a : DeviceMemoryAllocator) (ordinal : Nat)
    (m : DeviceMemoryBase) (σ : AllocState) : AllocState :=
  ⟨σ.allocLog, σ.allocSuccessLog, σ.deallocLog ++ [(ordinal, m.addr)]⟩

/-! ## ShapedBuffer -/

/-- The non-owning view of shaped_buffer.h: a shape, a device identity
(platform and ordinal), a flat table of device memory handles, and a
`ShapeTree Nat` mapping every shape position to an entry of that table.
Field names follow the source. -/
structure ShapedBuffer where
  shape_ : Shape
  platform_ : Nat
  device_ordinal_ : Nat
  buffers_ : List DeviceMemoryBase
  shape_index_to_buffer_entry_ : ShapeTree Nat

/-- Modelled from the spec: the `ShapedBuffer(shape, platform,
device_ordinal)` constructor — index map over the full shape topology with
all entries initialized to the sentinel 0 (C++ value-initialized size_t),
buffer table empty. -/
def ShapedBuffer.make (shape : Shape) (platform : Nat) (device_ordinal : Nat) : ShapedBuffer :=
  { shape_ := shape
    platform_ := platform
    device_ordinal_ := device_ordinal
    buffers_ := []
    shape_index_to_buffer_entry_ := ShapeTree.ofShape 0 shape }

/-- Modelled from the spec: `ShapedBuffer::buffer(index)` — resolve the
index through the index map to an entry id, then read the buffer table;
an index outside the shape topology is a fatal precondition violation
(`none`), while a table entry that was never populated reads as the null
sentinel, never as undefined content. -/
def ShapedBuffer.buffer (b : ShapedBuffer) (index : List Nat) : Option DeviceMemoryBase :=
  match b.shape_index_to_buffer_entry_.lookup index with
  | none => none
  | some e => some (b.buffers_.getD e DeviceMemoryBase.null)

/-- Modelled from the spec: `ShapedBuffer::clear()` — set every buffer
table entry to the null handle; no allocator interaction, so the
interaction record is returned unchanged. -/
def ShapedBuffer.clear (b : ShapedBuffer) (σ : AllocState) : ShapedBuffer × AllocState :=
  ({ b with buffers_ := b.buffers_.map (fun _ => DeviceMemoryBase.null) }, σ)

/-- Modelled from the spec: `ShapedBuffer::MakeArrayShapedBuffer(shape,
platform, device_ordinal, buffer)` — validate that the supplied buffer is
at least as large as the shape requires (SizeMismatch otherwise, with no
partial object), then build a single-entry table with a trivial index map;
the function never touches an allocator. -/
def ShapedBuffer.MakeArrayShapedBuffer (shape : Shape) (platform : Nat)
    (device_ordinal : Nat) (buffer : DeviceMemoryBase) (σ : AllocState) :
    Except XlaError ShapedBuffer × AllocState :=
  if buffer.size < byteSizeOf shape then
    (.error .SizeMismatch, σ)
  else
    (.ok { shape_ := shape
           platform_ := platform
           device_ordinal_ := device_ordinal
           buffers_ := [buffer]
           shape_index_to_buffer_entry_ := ShapeTree.ofShape 0 shape }, σ)

/-- Modelled from the spec: a plain ShapedBuffer is non-owning, so its
destruction performs no deallocation and leaves the allocator interaction
record unchanged. -/
def ShapedBuffer.destroy (_b : ShapedBuffer) (σ : AllocState) : AllocState := σ

/-! ## ScopedShapedBuffer -/

/-- The owning extension of ShapedBuffer: the same data plus the allocator
that produced (and will reclaim) the buffers. -/
structure ScopedShapedBuffer extends ShapedBuffer where
  allocator_ : DeviceMemoryAllocator

/-- Modelled from the spec: the Owning/Released state of a
ScopedShapedBuffer is implicit in whether its table still holds non-null
handles; Released means every entry is null. -/
def ScopedShapedBuffer.isReleased (b : ScopedShapedBuffer) : Bool :=
  b.buffers_.all (fun m => m.isNull)

/-- Modelled from the spec: the allocation loop of
`ScopedShapedBuffer::Allocate` — request each size in turn; on a failure,
deallocate every buffer already allocated in this call (the rollback
happens on the way out, innermost first) and report the failure. -/
def allocateList (a : DeviceMemoryAllocator) (ordinal : Nat) :
    List Nat → AllocState → Except XlaError (List DeviceMemoryBase) × AllocState
  | [], σ => (.ok [], σ)
  | size :: rest, σ =>
    match a.Allocate ordinal size σ with
    | (.ok m, σ1) =>
      match allocateList a ordinal rest σ1 with
      | (.ok ms, σ2) => (.ok (m :: ms), σ2)
      | (.error e, σ2) => (.error e, a.Deallocate ordinal m σ2)
    | (.error e, σ1) => (.error e, σ1)

/-- Modelled from the spec: `ScopedShapedBuffer::Allocate(shape, allocator,
device_ordinal)` — visit every node of the shape in pre-order, requesting
one buffer per node (leaves sized by `byteSizeOf`, tuple nodes sized for
their child-pointer representation); on success the n-th visited node's
index map entry is n and the buffer table lists the handles in visit
order; on any failure everything already allocated is deallocated and
AllocationFailure is returned with no partial object. -/
def ScopedShapedBuffer.Allocate (shape : Shape) (allocator : DeviceMemoryAllocator)
    (device_ordinal : Nat) (σ : AllocState) :
    Except XlaError ScopedShapedBuffer × AllocState :=
  match allocateList allocator device_ordinal (allocSizes shape) σ with
  | (.ok handles, σ1) =>
    (.ok { shape_ := shape
           platform_ := allocator.platform
           device_ordinal_ := device_ordinal
           buffers_ := handles
           shape_index_to_buffer_entry_ := (numberShape shape 0).1
           allocator_ := allocator }, σ1)
  | (.error e, σ1) => (.error e, σ1)

/-- Modelled from the spec: `ScopedShapedBuffer::MakeScoped(shaped_buffer,
allocator)` — take over the buffer table and index map of an existing
ShapedBuffer without allocating anything new, and null the source's
entries via `clear()`. Returns the new owner together with the mutated
source. -/
def ScopedShapedBuffer.MakeScoped (shaped_buffer : ShapedBuffer)
    (allocator : DeviceMemoryAllocator) (σ : AllocState) :
    (ScopedShapedBuffer × ShapedBuffer) × AllocState :=
  let r := shaped_buffer.clear σ
  (({ toShapedBuffer := shaped_buffer, allocator_ := allocator }, r.1), r.2)

/-- Modelled from the spec: `ScopedShapedBuffer::release()` — return a
plain ShapedBuffer carrying the current table and index map, and null this
object's own table (analogous to `std::unique_ptr::release`). Returns the
released plain buffer together with the (now Released) original. -/
def ScopedShapedBuffer.release (b : ScopedShapedBuffer) (σ : AllocState) :
    (ShapedBuffer × ScopedShapedBuffer) × AllocState :=
  let r := b.toShapedBuffer.clear σ
  ((b.toShapedBuffer, { b with toShapedBuffer := r.1 }), r.2)

/-- Modelled from the spec: the destructor loop — walk the buffer table,
skipping null entries and entries whose address was already deallocated in
this destruction (the C++ code keeps a set of deallocated addresses), and
deallocate each remaining entry through the allocator. -/
def destroyLoop (a : DeviceMemoryAllocator) (ordinal : Nat) :
    List DeviceMemoryBase → List Nat → AllocState → AllocState
  | [], _, σ => σ
  | m :: rest, seen, σ =>
    if m.isNull = true ∨ m.addr ∈ seen then
      destroyLoop a ordinal rest seen σ
    else
      destroyLoop a ordinal rest (m.addr :: seen) (a.Deallocate ordinal m σ)

/-- Modelled from the spec: `ScopedShapedBuffer::~ScopedShapedBuffer` —
deallocate each distinct non-null buffer table entry exactly once,
deduplicating by entry address. -/
def ScopedShapedBuffer.destroy (b : ScopedShapedBuffer) (σ : AllocState) : AllocState :=
  destroyLoop b.allocator_ b.device_ordinal_ b.buffers_ [] σ

/-- Addresses the destructor loop would deallocate from a table, given the
addresses already handled: first occurrences of the non-null addresses not
yet seen. -/
def dedupFilter : List DeviceMemoryBase → List Nat → List Nat
  | [], _ => []
  | m :: rest, seen =>
    if m.isNull = true ∨ m.addr ∈ seen then
      dedupFilter rest seen
    else
      m.addr :: dedupFilter rest (m.addr :: seen)

/-- Number of distinct non-null entries of a buffer table, counted by
entry address. -/
def distinctNonNullCount (bufs : List DeviceMemoryBase) : Nat :=
  ((bufs.filter (fun m => !m.isNull)).map (fun m => m.addr)).toFinset.card

/-! ## Shared concrete instances (used by witnesses) -/

/-- An allocator that grants every request. -/
def alwaysOk : DeviceMemoryAllocator := ⟨0, fun _ => true⟩

/-- An allocator that grants only the first request of its lifetime. -/
def grantsOne : DeviceMemoryAllocator := ⟨0, fun n => n == 0⟩

/-- The tuple shape of two array subshapes of 16 and 32 bytes from the
spec's end-to-end scenarios. -/
def pairShape : Shape := .tuple (.cons (.array 16) (.cons (.array 32) .nil))

/-! ## Helper lemmas -/

/-- Inversion of a granted allocator request: the fresh handle and the
updated interaction record. -/
theorem Allocate_ok_elim (a : DeviceMemoryAllocator) (ord size : Nat) (σ : AllocState)
    (m : DeviceMemoryBase) (σ1 : AllocState)
    (h : a.Allocate ord size σ = (.ok m, σ1)) :
    m = ⟨σ.allocLog.length + 1, size⟩ ∧
    σ1 = ⟨σ.allocLog ++ [(ord, size)],
          σ.allocSuccessLog ++ [(ord, σ.allocLog.length + 1)], σ.deallocLog⟩ := by
  unfold DeviceMemoryAllocator.Allocate at h
  by_cases hok : a.ok σ.allocLog.length
  · simp [hok] at h
    exact ⟨h.1.symm, h.2.symm⟩
  · simp [hok] at h

/-- Inversion of a refused allocator request: the request is still logged,
nothing else changes. -/
theorem Allocate_error_elim (a : DeviceMemoryAllocator) (ord size : Nat) (σ : AllocState)
    (e : XlaError) (σ1 : AllocState)
    (h : a.Allocate ord size σ = (.error e, σ1)) :
    e = .AllocationFailure ∧
    σ1 = ⟨σ.allocLog ++ [(ord, size)], σ.allocSuccessLog, σ.deallocLog⟩ := by
  unfold DeviceMemoryAllocator.Allocate at h
  by_cases hok : a.ok σ.allocLog.length
  · simp [hok] at h
  · simp [hok] at h
    exact ⟨h.1.symm, h.2.symm⟩

/-- A failing allocation loop reports AllocationFailure and deallocates
exactly the handles it had successfully allocated (in reverse order). -/
theorem allocateList_error (a : DeviceMemoryAllocator) (ord : Nat) :
    ∀ (sizes : List Nat) (σ : AllocState) (e : XlaError) (σ' : AllocState),
    allocateList a ord sizes σ = (.error e, σ') →
    e = .AllocationFailure ∧
    ∃ L : List (Nat × Nat),
      σ'.allocSuccessLog = σ.allocSuccessLog ++ L ∧
      σ'.deallocLog = σ.deallocLog ++ L.reverse := by
  intro sizes
  induction sizes with
  | nil =>
    intro σ e σ' h
    simp [allocateList] at h
  | cons size rest ih =>
    intro σ e σ' h
    rw [allocateList] at h
    split at h
    · next m σ1 heq =>
      split at h
      · next ms σ2 heq2 => simp at h
      · next e2 σ2 heq2 =>
        obtain ⟨he, hs⟩ := Prod.mk.injEq .. ▸ h
        obtain ⟨hm, hσ1⟩ := Allocate_ok_elim a ord size σ m σ1 heq
        obtain ⟨he2, L', hL1, hL2⟩ := ih σ1 e2 σ2 heq2
        refine ⟨by injection he with h3; exact h3 ▸ he2, (ord, m.addr) :: L', ?_, ?_⟩
        · rw [← hs]
          simp [DeviceMemoryAllocator.Deallocate, hL1, hσ1, hm]
        · rw [← hs]
          simp [DeviceMemoryAllocator.Deallocate, hL2, hσ1, hm]
    · next e2 σ1 heq =>
      obtain ⟨he, hs⟩ := Prod.mk.injEq .. ▸ h
      obtain ⟨he2, hσ1⟩ := Allocate_error_elim a ord size σ e2 σ1 heq
      exact ⟨by injection he with h3; exact h3 ▸ he2, [],
        by simp [← hs, hσ1], by simp [← hs, hσ1]⟩

/-- A successful allocation loop hands out the consecutive fresh addresses
following the entry state's request count, and never deallocates. -/
theorem allocateList_ok (a : DeviceMemoryAllocator) (ord : Nat) :
    ∀ (sizes : List Nat) (σ : AllocState) (hs : List DeviceMemoryBase) (σ' : AllocState),
    allocateList a ord sizes σ = (.ok hs, σ') →
    hs.map (fun m => m.addr) = List.range' (σ.allocLog.length + 1) sizes.length ∧
    σ'.allocLog.length = σ.allocLog.length + sizes.length ∧
    σ'.deallocLog = σ.deallocLog := by
  intro sizes
  induction sizes with
  | nil =>
    intro σ hs σ' h
    simp [allocateList] at h
    obtain ⟨h1, h2⟩ := h
    simp [← h1, ← h2, List.range']
  | cons size rest ih =>
    intro σ hs σ' h
    rw [allocateList] at h
    split at h
    · next m σ1 heq =>
      split at h
      · next ms σ2 heq2 =>
        obtain ⟨hh, hs2⟩ := Prod.mk.injEq .. ▸ h
        obtain ⟨hm, hσ1⟩ := Allocate_ok_elim a ord size σ m σ1 heq
        obtain ⟨ih1, ih2, ih3⟩ := ih σ1 ms σ2 heq2
        have hlen : σ1.allocLog.length = σ.allocLog.length + 1 := by simp [hσ1]
        obtain rfl : hs = m :: ms := by injection hh with h3; exact h3.symm
        refine ⟨?_, ?_, ?_⟩
        · simp only [List.map_cons, List.length_cons, List.range']
          rw [hm, ih1, hlen]
        · rw [← hs2, ih2, hlen]
          simp only [List.length_cons]
          omega
        · rw [← hs2, ih3, hσ1]
      · next e2 σ2 heq2 => simp at h
    · next e2 σ1 heq => simp at h

/-- The destructor loop only appends deallocation records: exactly one per
address the deduplicating walk selects. -/
theorem destroyLoop_eq (a : DeviceMemoryAllocator) (ord : Nat) :
    ∀ (l : List DeviceMemoryBase) (seen : List Nat) (σ : AllocState),
    destroyLoop a ord l seen σ =
      ⟨σ.allocLog, σ.allocSuccessLog,
       σ.deallocLog ++ (dedupFilter l seen).map (fun x => (ord, x))⟩ := by
  intro l
  induction l with
  | nil => intro seen σ; simp [destroyLoop, dedupFilter]
  | cons m rest ih =>
    intro seen σ
    by_cases hc : m.isNull = true ∨ m.addr ∈ seen
    · rw [destroyLoop, if_pos hc, dedupFilter, if_pos hc, ih]
    · rw [destroyLoop, if_neg hc, dedupFilter, if_neg hc, ih]
      simp [DeviceMemoryAllocator.Deallocate]

/-- The deduplicating walk never selects an address twice, nor one already
seen. -/
theorem dedupFilter_nodup :
    ∀ (l : List DeviceMemoryBase) (seen : List Nat),
    (dedupFilter l seen).Nodup ∧ ∀ x ∈ dedupFilter l seen, x ∉ seen := by
  intro l
  induction l with
  | nil => intro seen; simp [dedupFilter]
  | cons m rest ih =>
    intro seen
    by_cases hc : m.isNull = true ∨ m.addr ∈ seen
    · rw [dedupFilter, if_pos hc]; exact ih seen
    · rw [dedupFilter, if_neg hc]
      obtain ⟨ihn, ihs⟩ := ih (m.addr :: seen)
      push_neg at hc
      refine ⟨List.nodup_cons.mpr ⟨fun hmem => ?_, ihn⟩, ?_⟩
      · exact (ihs m.addr hmem) (List.mem_cons_self m.addr seen)
      · intro x hx
        rcases List.mem_cons.mp hx with h1 | h1
        · exact h1 ▸ hc.2
        · exact fun hxs => (ihs x h1) (List.mem_cons_of_mem _ hxs)

/-- The addresses the deduplicating walk selects are exactly the distinct
non-null addresses of the table not yet seen. -/
theorem dedupFilter_toFinset :
    ∀ (l : List DeviceMemoryBase) (seen : List Nat),
    (dedupFilter l seen).toFinset =
      ((l.filter (fun m => !m.isNull)).map (fun m => m.addr)).toFinset \ seen.toFinset := by
  intro l
  induction l with
  | nil => intro seen; simp [dedupFilter]
  | cons m rest ih =>
    intro seen
    by_cases hnull : m.isNull = true
    · rw [dedupFilter, if_pos (Or.inl hnull), ih]
      simp [List.filter_cons, hnull]
    · have hb : m.isNull = false := by revert hnull; cases m.isNull <;> simp
      have hf : ((List.filter (fun x => !x.isNull) (m :: rest)).map (fun x => x.addr)).toFinset
          = insert m.addr ((List.filter (fun x => !x.isNull) rest).map (fun x => x.addr)).toFinset := by
        simp [List.filter_cons, hb]
      by_cases hseen : m.addr ∈ seen
      · rw [dedupFilter, if_pos (Or.inr hseen), ih, hf,
          Finset.insert_sdiff_of_mem _ (List.mem_toFinset.mpr hseen)]
      · rw [dedupFilter, if_neg (by push_neg; exact ⟨hnull, hseen⟩)]
        rw [List.toFinset_cons, ih, hf, List.toFinset_cons]
        ext x
        simp only [Finset.mem_insert, Finset.mem_sdiff, List.mem_toFinset, List.mem_cons]
        constructor
        · rintro (rfl | ⟨h1, h2⟩)
          · exact ⟨Or.inl rfl, hseen⟩
          · exact ⟨Or.inr h1, fun hx => h2 (Or.inr hx)⟩
        · rintro ⟨h1 | h1, h2⟩
          · exact Or.inl h1
          · by_cases hxm : x = m.addr
            · exact Or.inl hxm
            · refine Or.inr ⟨h1, fun hx => ?_⟩
              rcases hx with h3 | h3
              · exact hxm h3
              · exact h2 h3

/-- Count of addresses selected by the deduplicating walk. -/
theorem dedupFilter_length (l : List DeviceMemoryBase) (seen : List Nat) :
    (dedupFilter l seen).length =
      (((l.filter (fun m => !m.isNull)).map (fun m => m.addr)).toFinset \ seen.toFinset).card := by
  rw [← dedupFilter_toFinset]
  exact (List.toFinset_card_of_nodup (dedupFilter_nodup l seen).1).symm

mutual

/-- A default-initialized ShapeTree answers lookups exactly on the valid
indices of its shape, with the initial value. -/
theorem lookup_ofShape {α : Type} (init : α) :
    ∀ (s : Shape) (idx : List Nat),
    (ShapeTree.ofShape init s).lookup idx = (getSubshape s idx).map (fun _ => init)
  | .array _, [] => rfl
  | .array _, _ :: _ => rfl
  | .tuple _, [] => rfl
  | .tuple es, i :: rest => lookupChildren_ofShapeList init es i rest

/-- Child-list companion of `lookup_ofShape`. -/
theorem lookupChildren_ofShapeList {α : Type} (init : α) :
    ∀ (es : ShapeList) (i : Nat) (rest : List Nat),
    ShapeTree.lookupChildren (ShapeTree.ofShapeList init es) i rest =
      (getSubshapeList es i rest).map (fun _ => init)
  | .nil, _, _ => rfl
  | .cons s _, 0, rest => lookup_ofShape init s rest
  | .cons _ es, i+1, rest => lookupChildren_ofShapeList init es i rest

end

/-- Deallocation count of a full destructor run: one call per distinct
non-null table entry. -/
theorem destroy_deallocCalls (b : ScopedShapedBuffer) (σ : AllocState) :
    (b.destroy σ).deallocCalls = σ.deallocCalls + distinctNonNullCount b.buffers_ := by
  rw [ScopedShapedBuffer.destroy, destroyLoop_eq]
  simp only [AllocState.deallocCalls, List.length_append, List.length_map]
  rw [dedupFilter_length]
  simp [distinctNonNullCount]

/-- A destructor run over a table with only null entries changes nothing. -/
theorem destroyLoop_null (a : DeviceMemoryAllocator) (ord : Nat) :
    ∀ (l : List DeviceMemoryBase) (seen : List Nat) (σ : AllocState),
    (∀ m ∈ l, m.isNull = true) → destroyLoop a ord l seen σ = σ := by
  intro l
  induction l with
  | nil => intro seen σ _; rw [destroyLoop]
  | cons m rest ih =>
    intro seen σ hall
    rw [destroyLoop, if_pos (Or.inl (hall m (List.mem_cons_self m rest)))]
    exact ih seen σ (fun x hx => hall x (List.mem_cons_of_mem m hx))

/-- Destroying a Released ScopedShapedBuffer leaves the allocator
interaction record untouched. -/
theorem destroy_of_isReleased (b : ScopedShapedBuffer) (σ : AllocState)
    (h : b.isReleased = true) : b.destroy σ = σ := by
  rw [ScopedShapedBuffer.destroy]
  exact destroyLoop_null b.allocator_ b.device_ordinal_ b.buffers_ [] σ
    (fun m hm => List.all_eq_true.mp h m hm)

/-- Reading any position of a constant-mapped list with the same default
yields that constant. -/
theorem getD_map_const {α β : Type} (c : β) :
    ∀ (l : List α) (e : Nat), (l.map (fun _ => c)).getD e c = c := by
  intro l
  induction l with
  | nil => intro e; rfl
  | cons x rest ih =>
    intro e
    cases e with
    | zero => rfl
    | succ e' => exact ih e'

/-! ## Claims -/

/-- Claim C1: if `ScopedShapedBuffer.Allocate` fails on any allocation
request partway through visiting the shape's nodes, then before the
AllocationFailure is reported every buffer already allocated during that
same call is deallocated, no partial ScopedShapedBuffer is returned (the
result is the bare error), and the net allocator call balance (successful
allocations minus deallocations) over the call is zero. -/
theorem Allocate_failure_rolls_back (shape : Shape) (a : DeviceMemoryAllocator)
    (ord : Nat) (σ : AllocState) (e : XlaError) (σ' : AllocState)
    (h : ScopedShapedBuffer.Allocate shape a ord σ = (.error e, σ')) :
    e = .AllocationFailure ∧
    ∃ L : List (Nat × Nat),
      σ'.allocSuccessLog = σ.allocSuccessLog ++ L ∧
      σ'.deallocLog = σ.deallocLog ++ L.reverse ∧
      σ'.allocSuccesses = σ.allocSuccesses + L.length ∧
      σ'.deallocCalls = σ.deallocCalls + L.length := by
  rw [ScopedShapedBuffer.Allocate] at h
  split at h
  · next hs σ1 heq => simp at h
  · next e2 σ1 heq =>
    obtain ⟨he, hσ⟩ := Prod.mk.injEq .. ▸ h
    subst hσ
    have h3 := Except.error.inj he
    subst h3
    obtain ⟨he2, L, h1, h2⟩ := allocateList_error a ord (allocSizes shape) σ _ _ heq
    exact ⟨he2, L, h1, h2,
      by simp [AllocState.allocSuccesses, h1],
      by simp [AllocState.deallocCalls, h2]⟩

/-- Witness for C1: allocating the 16/32-byte pair tuple with an allocator
that grants only its first request fails, having rolled the one granted
buffer back. -/
theorem Allocate_failure_rolls_back_witness :
    XlaError.AllocationFailure = XlaError.AllocationFailure ∧
    ∃ L : List (Nat × Nat),
      (⟨[(0, 16), (0, 16)], [(0, 1)], [(0, 1)]⟩ : AllocState).allocSuccessLog =
        AllocState.initial.allocSuccessLog ++ L ∧
      (⟨[(0, 16), (0, 16)], [(0, 1)], [(0, 1)]⟩ : AllocState).deallocLog =
        AllocState.initial.deallocLog ++ L.reverse ∧
      (⟨[(0, 16), (0, 16)], [(0, 1)], [(0, 1)]⟩ : AllocState).allocSuccesses =
        AllocState.initial.allocSuccesses + L.length ∧
      (⟨[(0, 16), (0, 16)], [(0, 1)], [(0, 1)]⟩ : AllocState).deallocCalls =
        AllocState.initial.deallocCalls + L.length :=
  Allocate_failure_rolls_back pairShape grantsOne 0 AllocState.initial
    .AllocationFailure ⟨[(0, 16), (0, 16)], [(0, 1)], [(0, 1)]⟩ rfl

/-- Claim C2: destroying a ScopedShapedBuffer issues exactly one
deallocation call per distinct non-null buffer-table entry it owns,
regardless of how many shape-index positions reference each entry; the
destructor deduplicates by entry address and never deallocates the same
handle twice (the addresses of the deallocation calls it adds are
pairwise distinct and are exactly the distinct non-null table addresses). -/
theorem destructor_deallocates_each_distinct_entry_once
    (b : ScopedShapedBuffer) (σ : AllocState) :
    (b.destroy σ).deallocCalls = σ.deallocCalls + distinctNonNullCount b.buffers_ ∧
    ((((b.destroy σ).deallocLog).drop σ.deallocLog.length).map Prod.snd).Nodup ∧
    ((((b.destroy σ).deallocLog).drop σ.deallocLog.length).map Prod.snd).toFinset =
      ((b.buffers_.filter (fun m => !m.isNull)).map (fun m => m.addr)).toFinset := by
  refine ⟨destroy_deallocCalls b σ, ?_, ?_⟩
  · rw [ScopedShapedBuffer.destroy, destroyLoop_eq]
    simp only [List.drop_left, List.map_map]
    simpa using (dedupFilter_nodup b.buffers_ []).1
  · rw [ScopedShapedBuffer.destroy, destroyLoop_eq]
    simp only [List.drop_left, List.map_map]
    have h4 := dedupFilter_toFinset b.buffers_ []
    simp at h4
    simpa using h4

/-- Claim C3: `release()` puts the object in the Released state, Released
is terminal (the remaining interface operation, a further release, keeps
it Released, and destruction only ends its life), and destroying either
the returned plain ShapedBuffer or the Released original leaves the
allocator interaction record unchanged — zero deallocation calls. -/
theorem release_suppresses_deallocation (b : ScopedShapedBuffer) (σ σ2 : AllocState) :
    ((b.release σ).2 = σ) ∧
    ((b.release σ).1.2.isReleased = true) ∧
    (ShapedBuffer.destroy ((b.release σ).1.1) σ2 = σ2) ∧
    (((b.release σ).1.2.destroy σ2) = σ2) ∧
    (∀ (b' : ScopedShapedBuffer) (σ3 σ4 : AllocState), b'.isReleased = true →
      ((b'.release σ3).1.2.isReleased = true) ∧ (b'.destroy σ4 = σ4)) := by
  have hrel : ∀ (c : ScopedShapedBuffer) (τ : AllocState),
      (c.release τ).1.2.isReleased = true := by
    intro c τ
    rw [ScopedShapedBuffer.release]
    simp only [ScopedShapedBuffer.isReleased, ShapedBuffer.clear, List.all_eq_true]
    intro m hm
    obtain ⟨x, _, rfl⟩ := List.mem_map.mp hm
    rfl
  refine ⟨rfl, hrel b σ, rfl, ?_, ?_⟩
  · exact destroy_of_isReleased _ σ2 (hrel b σ)
  · intro b' σ3 σ4 h
    exact ⟨hrel b' σ3, destroy_of_isReleased b' σ4 h⟩

/-- Witness for C3: a concrete Released ScopedShapedBuffer (single null
table entry) stays Released under release and destroys without any
deallocation call. -/
theorem release_suppresses_deallocation_witness :
    ((⟨⟨.array 16, 0, 0, [DeviceMemoryBase.null], .leaf 0⟩,
        alwaysOk⟩ : ScopedShapedBuffer).release AllocState.initial).1.2.isReleased = true ∧
    ((⟨⟨.array 16, 0, 0, [DeviceMemoryBase.null], .leaf 0⟩,
        alwaysOk⟩ : ScopedShapedBuffer).destroy AllocState.initial = AllocState.initial) :=
  (release_suppresses_deallocation
    ⟨⟨.array 16, 0, 0, [DeviceMemoryBase.null], .leaf 0⟩, alwaysOk⟩
    AllocState.initial AllocState.initial).2.2.2.2
    ⟨⟨.array 16, 0, 0, [DeviceMemoryBase.null], .leaf 0⟩, alwaysOk⟩
    AllocState.initial AllocState.initial rfl

/-- Claim C4: `MakeArrayShapedBuffer` on an array shape with a supplied
buffer strictly shorter than the shape's required byte size returns a
SizeMismatch error, constructs no object, and leaves the allocator
interaction record untouched (zero allocator calls). -/
theorem MakeArrayShapedBuffer_size_mismatch (n p ord : Nat)
    (buffer : DeviceMemoryBase) (σ : AllocState)
    (h : buffer.size < byteSizeOf (.array n)) :
    ShapedBuffer.MakeArrayShapedBuffer (.array n) p ord buffer σ =
      (.error .SizeMismatch, σ) := by
  rw [ShapedBuffer.MakeArrayShapedBuffer, if_pos h]

/-- Witness for C4: an 8-byte buffer for a 16-byte array shape. -/
theorem MakeArrayShapedBuffer_size_mismatch_witness :
    ShapedBuffer.MakeArrayShapedBuffer (.array 16) 0 0 ⟨1, 8⟩ AllocState.initial =
      (.error .SizeMismatch, AllocState.initial) :=
  MakeArrayShapedBuffer_size_mismatch 16 0 0 ⟨1, 8⟩ AllocState.initial (by decide)

/-- Claim C5: `MakeScoped` takes over the buffer table and index map of
the given ShapedBuffer without any allocator interaction, the resulting
ScopedShapedBuffer holds exactly those entries (with the given allocator),
immediately afterwards every buffer-table entry of the source is null
(same table length), and destroying the resulting ScopedShapedBuffer
issues exactly one deallocation call per distinct non-null entry taken
over. -/
theorem MakeScoped_takes_over (sb : ShapedBuffer) (a : DeviceMemoryAllocator)
    (σ σ2 : AllocState) :
    ((ScopedShapedBuffer.MakeScoped sb a σ).2 = σ) ∧
    ((ScopedShapedBuffer.MakeScoped sb a σ).1.1.toShapedBuffer = sb) ∧
    ((ScopedShapedBuffer.MakeScoped sb a σ).1.1.allocator_ = a) ∧
    ((ScopedShapedBuffer.MakeScoped sb a σ).1.2.buffers_.all (fun m => m.isNull) = true) ∧
    ((ScopedShapedBuffer.MakeScoped sb a σ).1.2.buffers_.length = sb.buffers_.length) ∧
    (((ScopedShapedBuffer.MakeScoped sb a σ).1.1.destroy σ2).deallocCalls =
      σ2.deallocCalls + distinctNonNullCount sb.buffers_) := by
  refine ⟨rfl, rfl, rfl, ?_, ?_, ?_⟩
  · rw [ScopedShapedBuffer.MakeScoped]
    simp only [ShapedBuffer.clear, List.all_eq_true]
    intro m hm
    obtain ⟨x, _, rfl⟩ := List.mem_map.mp hm
    rfl
  · rw [ScopedShapedBuffer.MakeScoped]
    simp [ShapedBuffer.clear]
  · exact destroy_deallocCalls
      ⟨sb, a⟩ σ2

/-- Claim C6: a ShapedBuffer freshly built by the (shape, platform,
device_ordinal) constructor has an empty buffer table and an index map
answering exactly the valid shape indices (every leaf and tuple node of
the shape, and only those), all initialized to the sentinel 0 — so a
lookup at any valid ShapeIndex of the shape never fails. -/
theorem fresh_constructor_index_map_complete (shape : Shape) (p ord : Nat) :
    ((ShapedBuffer.make shape p ord).buffers_ = []) ∧
    (∀ index : List Nat,
      (ShapedBuffer.make shape p ord).shape_index_to_buffer_entry_.lookup index =
        (getSubshape shape index).map (fun _ => 0)) :=
  ⟨rfl, fun index => lookup_ofShape 0 shape index⟩

/-- Claim C7: `clear()` sets every buffer-table entry to the null handle —
a subsequent `buffer(index)` lookup at any index the index map answers
yields the null handle — and leaves the allocator interaction record
untouched (zero deallocation calls). -/
theorem clear_nulls_every_entry (b : ShapedBuffer) (σ : AllocState) :
    ((b.clear σ).2 = σ) ∧
    ((b.clear σ).1.buffers_.all (fun m => m.isNull) = true) ∧
    (∀ (index : List Nat) (e : Nat),
      b.shape_index_to_buffer_entry_.lookup index = some e →
      (b.clear σ).1.buffer index = some DeviceMemoryBase.null) := by
  refine ⟨rfl, ?_, ?_⟩
  · simp only [ShapedBuffer.clear, List.all_eq_true]
    intro m hm
    obtain ⟨x, _, rfl⟩ := List.mem_map.mp hm
    rfl
  · intro index e h
    rw [ShapedBuffer.buffer]
    have hmap : (b.clear σ).1.shape_index_to_buffer_entry_ =
        b.shape_index_to_buffer_entry_ := rfl
    rw [hmap, h]
    have hb : (b.clear σ).1.buffers_ = b.buffers_.map (fun _ => DeviceMemoryBase.null) := rfl
    rw [hb]
    show some ((b.buffers_.map (fun _ => DeviceMemoryBase.null)).getD e DeviceMemoryBase.null) =
      some DeviceMemoryBase.null
    rw [getD_map_const]

/-- Witness for C7: a concrete single-entry array ShapedBuffer whose root
index resolves to entry 0. -/
theorem clear_nulls_every_entry_witness :
    ((⟨.array 16, 0, 0, [⟨5, 16⟩], .leaf 0⟩ : ShapedBuffer).clear
        AllocState.initial).1.buffer [] = some DeviceMemoryBase.null :=
  (clear_nulls_every_entry ⟨.array 16, 0, 0, [⟨5, 16⟩], .leaf 0⟩
    AllocState.initial).2.2 [] 0 rfl

/-- Claim C10: `clear()` mutates only the values of the buffer-table
entries: the table length, the entire index map, and the shape, platform
and device ordinal are unchanged. -/
theorem clear_frame (b : ShapedBuffer) (σ : AllocState) :
    ((b.clear σ).1.buffers_.length = b.buffers_.length) ∧
    ((b.clear σ).1.shape_index_to_buffer_entry_ = b.shape_index_to_buffer_entry_) ∧
    ((b.clear σ).1.shape_ = b.shape_) ∧
    ((b.clear σ).1.platform_ = b.platform_) ∧
    ((b.clear σ).1.device_ordinal_ = b.device_ordinal_) := by
  refine ⟨?_, rfl, rfl, rfl, rfl⟩
  simp [ShapedBuffer.clear]

/-- Claim C8: for the tuple shape of two array subshapes of 16 and 32
bytes, `Allocate` issues exactly 3 allocation requests — one
tuple-representation buffer (two pointers) plus one per array leaf at
exactly that leaf's byte size — the buffer table has exactly 3 entries,
and the index map resolves the empty index to the tuple buffer entry,
index 0 to the 16-byte leaf entry and index 1 to the 32-byte leaf entry. -/
theorem Allocate_pair_tuple_scenario (a : DeviceMemoryAllocator) (ord : Nat) (σ : AllocState)
    (h0 : a.ok σ.allocCalls = true) (h1 : a.ok (σ.allocCalls + 1) = true)
    (h2 : a.ok (σ.allocCalls + 2) = true) :
    ∃ sb : ScopedShapedBuffer,
      ScopedShapedBuffer.Allocate pairShape a ord σ =
        (.ok sb,
         ⟨σ.allocLog ++ [(ord, 16), (ord, 16), (ord, 32)],
          σ.allocSuccessLog ++
            [(ord, σ.allocCalls + 1), (ord, σ.allocCalls + 2), (ord, σ.allocCalls + 3)],
          σ.deallocLog⟩) ∧
      sb.buffers_.length = 3 ∧
      sb.buffers_ = [⟨σ.allocCalls + 1, 16⟩, ⟨σ.allocCalls + 2, 16⟩, ⟨σ.allocCalls + 3, 32⟩] ∧
      sb.buffer [] = some ⟨σ.allocCalls + 1, 16⟩ ∧
      sb.buffer [0] = some ⟨σ.allocCalls + 2, 16⟩ ∧
      sb.buffer [1] = some ⟨σ.allocCalls + 3, 32⟩ := by
  simp only [AllocState.allocCalls] at h0 h1 h2
  refine ⟨⟨⟨pairShape, a.platform, ord,
    [⟨σ.allocCalls + 1, 16⟩, ⟨σ.allocCalls + 2, 16⟩, ⟨σ.allocCalls + 3, 32⟩],
    (numberShape pairShape 0).1⟩, a⟩, ?_, rfl, rfl, rfl, rfl, rfl⟩
  have hsizes : allocSizes pairShape = [16, 16, 32] := rfl
  simp only [ScopedShapedBuffer.Allocate, hsizes, allocateList,
    DeviceMemoryAllocator.Allocate, List.length_append, List.length_cons,
    List.length_nil, Nat.zero_add, h0, h1, h2, if_true, List.append_assoc,
    List.cons_append, List.nil_append, List.singleton_append]
  rfl

/-- Witness for C8: the scenario run against an allocator granting every
request, starting from the empty interaction record. -/
theorem Allocate_pair_tuple_scenario_witness :
    ∃ sb : ScopedShapedBuffer,
      ScopedShapedBuffer.Allocate pairShape alwaysOk 0 AllocState.initial =
        (.ok sb, ⟨[(0, 16), (0, 16), (0, 32)], [(0, 1), (0, 2), (0, 3)], []⟩) ∧
      sb.buffers_.length = 3 ∧
      sb.buffers_ = [⟨1, 16⟩, ⟨2, 16⟩, ⟨3, 32⟩] ∧
      sb.buffer [] = some ⟨1, 16⟩ ∧
      sb.buffer [0] = some ⟨2, 16⟩ ∧
      sb.buffer [1] = some ⟨3, 32⟩ := by
  exact Allocate_pair_tuple_scenario alwaysOk 0 AllocState.initial rfl rfl rfl

/-- Claim C9: the public interface cannot duplicate ownership (the C++
copy constructor and copy assignment are deleted; the only ways to obtain
a ScopedShapedBuffer are `Allocate` and `MakeScoped`): a buffer table
produced by `Allocate` holds only handles strictly fresher than every
handle in existence before the call and pairwise distinct among
themselves, and `MakeScoped` leaves its source with no non-null entry —
so no operation ever yields a second owning holder of a handle. -/
theorem no_owning_copy_through_interface :
    (∀ (shape : Shape) (a : DeviceMemoryAllocator) (ord : Nat) (σ : AllocState)
       (sb : ScopedShapedBuffer) (σ' : AllocState),
       ScopedShapedBuffer.Allocate shape a ord σ = (.ok sb, σ') →
       (∀ m ∈ sb.buffers_, σ.allocCalls < m.addr) ∧
       (sb.buffers_.map (fun m => m.addr)).Nodup) ∧
    (∀ (sb : ShapedBuffer) (a : DeviceMemoryAllocator) (σ : AllocState),
       (ScopedShapedBuffer.MakeScoped sb a σ).1.2.buffers_.all (fun m => m.isNull) = true) := by
  constructor
  · intro shape a ord σ sb σ' h
    rw [ScopedShapedBuffer.Allocate] at h
    split at h
    · next hs σ1 heq =>
      obtain ⟨hok, hσ⟩ := Prod.mk.injEq .. ▸ h
      have hsb := Except.ok.inj hok
      obtain ⟨hmapeq, hlen, hde⟩ := allocateList_ok a ord (allocSizes shape) σ hs σ1 heq
      have hbuf : sb.buffers_ = hs := by rw [← hsb]
      constructor
      · intro m hm
        have hmem : m.addr ∈ hs.map (fun m => m.addr) :=
          List.mem_map_of_mem _ (hbuf ▸ hm)
        rw [hmapeq] at hmem
        obtain ⟨i, hi, hieq⟩ := List.mem_range'.mp hmem
        simp only [AllocState.allocCalls]
        omega
      · rw [hbuf, hmapeq]
        exact List.nodup_range' _ _
    · next e σ1 heq => simp at h
  · intro sb a σ
    rw [ScopedShapedBuffer.MakeScoped]
    simp only [ShapedBuffer.clear, List.all_eq_true]
    intro m hm
    obtain ⟨x, _, rfl⟩ := List.mem_map.mp hm
    rfl

/-- Witness for C9: the freshness and distinctness conclusions at a
concrete successful `Allocate` of the 16/32-byte pair tuple. -/
theorem no_owning_copy_through_interface_witness :
    (∀ m ∈ ([⟨1, 16⟩, ⟨2, 16⟩, ⟨3, 32⟩] : List DeviceMemoryBase),
      AllocState.initial.allocCalls < m.addr) ∧
    (([⟨1, 16⟩, ⟨2, 16⟩, ⟨3, 32⟩] : List DeviceMemoryBase).map (fun m => m.addr)).Nodup := by
  exact no_owning_copy_through_interface.1 pairShape alwaysOk 0 AllocState.initial
    ⟨⟨pairShape, alwaysOk.platform, 0, [⟨1, 16⟩, ⟨2, 16⟩, ⟨3, 32⟩],
      (numberShape pairShape 0).1⟩, alwaysOk⟩
    ⟨[(0, 16), (0, 16), (0, 32)], [(0, 1), (0, 2), (0, 3)], []⟩ rfl
